import Mathlib

/-!
Verification of the lead follow-up job (`script_lead_followup.py`).

Shallow embedding: timestamps are integers (seconds since epoch), the two
Firestore collections are lists of records, and the external collaborators
(Firestore, the Resend email API, environment variables) are parameters of
the run.  Python truthiness of the optional string fields is modelled
explicitly.  Firestore query semantics used by the script: an equality or
inequality filter on a field only matches documents where that field is
present.
-/

/-- A document of the `leads` collection: the fields read by `main` in
`script_lead_followup.py` (`email`, `imei`, `createdAt`, `followUpSent`)
plus the document id.  `email`, `imei` and `createdAt` may be missing. -/
structure Lead where
  id : String
  email : Option String
  imei : Option String
  createdAt : Option Int
  followUpSent : Bool
  deriving DecidableEq, Repr

/-- A document of the `registros` collection: only the two fields the job
queries, `customerEmail` and `imei1` (lines 157-159). -/
structure Registro where
  customerEmail : String
  imei1 : String
  deriving DecidableEq, Repr

/-- A store write, `db.collection(c).document(d).update({f: v})`.  The job
only ever issues single-field boolean updates (lines 164 and 171). -/
structure StoreOp where
  collection : String
  docId : String
  field : String
  value : Bool
  deriving DecidableEq, Repr

/-- An email POST handed to the provider: the recipient and the imei that is
interpolated into the body and the deep link (lines 35-86). -/
structure EmailMsg where
  toEmail : String
  imei : String
  deriving DecidableEq, Repr

/-- Python truthiness of an optional string field: `None` and the empty
string are falsy, used by `if not lead_email or not lead_imei` (line 150)
and `if not api_key` (line 28). -/
def truthyStr : Option String → Bool
  | none => false
  | some s => !s.isEmpty

/-- Insertion into a list sorted by descending `createdAt`, keeping the
lead before the first-later-or-equal element. -/
def insertDesc (l : Lead) : List Lead → List Lead
  | [] => [l]
  | x :: xs =>
      if x.createdAt.getD 0 ≤ l.createdAt.getD 0 then l :: x :: xs
      else x :: insertDesc l xs

/-- Stable sort by descending `createdAt`, the `order_by` of line 123. -/
def sortByCreatedAtDesc : List Lead → List Lead
  | [] => []
  | x :: xs => insertDesc x (sortByCreatedAtDesc xs)

/-- The server-side leads query (lines 121-125):
`where followUpSent == False`, `where createdAt <= one_hour_ago`,
ordered by `createdAt` descending.  A Firestore inequality filter only
matches documents where the field is present. -/
def leadsQuery (leads : List Lead) (oneHourAgo : Int) : List Lead :=
  sortByCreatedAtDesc (leads.filter fun l =>
    (l.followUpSent == false) &&
      (match l.createdAt with
        | some t => decide (t ≤ oneHourAgo)
        | none => false))

/-- The local post-filter (lines 131-134): keep the leads whose `createdAt`
is present (a datetime object is always truthy) and at least
`two_days_ago`.  `now` is the single timestamp taken at line 116;
one hour is 3600 seconds, two days are 172800 seconds. -/
def leadsToProcess (leads : List Lead) (now : Int) : List Lead :=
  (leadsQuery leads (now - 3600)).filter fun l =>
    match l.createdAt with
    | some t => decide (now - 172800 ≤ t)
    | none => false

/-- `send_resend_email` (lines 26-102): with a falsy API key it returns
`False` without contacting the provider; otherwise the outcome is the
provider response, `True` on 2xx and `False` on any non-2xx or transport
error (the `RequestException` is caught inside, lines 93-102).
`providerOk to imei` models the providers answer to the POST. -/
def send_resend_email (apiKey : Option String) (providerOk : String → String → Bool)
    (toEmail imei : String) : Bool :=
  if truthyStr apiKey = false then false
  else providerOk toEmail imei

/-- The duplicate-purchase check (lines 156-162): does some registration
match `customerEmail == email` and `imei1 == imei` together. -/
def hasRegistro (registros : List Registro) (email imei : String) : Bool :=
  registros.any fun r => r.customerEmail == email && r.imei1 == imei

/-- One iteration of the per-lead loop (lines 142-172), returning the store
writes and the email POSTs this lead causes.  Missing email or imei: skip
(lines 150-152).  Registration match: mark `followUpSent` true, no email
(lines 162-165).  Otherwise attempt the send (a POST happens whenever the
API key is truthy, whatever its outcome) and mark only on success
(lines 167-172). -/
def processLead (registros : List Registro) (apiKey : Option String)
    (providerOk : String → String → Bool) (l : Lead) :
    List StoreOp × List EmailMsg :=
  if truthyStr l.email = false ∨ truthyStr l.imei = false then ([], [])
  else
    let email := l.email.getD ""
    let imei := l.imei.getD ""
    if hasRegistro registros email imei then
      ([⟨"leads", l.id, "followUpSent", true⟩], [])
    else
      let attempts : List EmailMsg := if truthyStr apiKey then [⟨email, imei⟩] else []
      if send_resend_email apiKey providerOk email imei then
        ([⟨"leads", l.id, "followUpSent", true⟩], attempts)
      else
        ([], attempts)

/-- The whole run of `main` on the happy path (every store call succeeds):
select, then process each selected lead in order, collecting the store
writes and the email POSTs of the run. -/
def runJob (leads : List Lead) (registros : List Registro) (apiKey : Option String)
    (providerOk : String → String → Bool) (now : Int) :
    List StoreOp × List EmailMsg :=
  ((leadsToProcess leads now).flatMap fun l => (processLead registros apiKey providerOk l).1,
   (leadsToProcess leads now).flatMap fun l => (processLead registros apiKey providerOk l).2)

/-- Effect of one store write on the leads collection: an update of the
`followUpSent` field of a lead document sets that field; any other write
leaves the collection unchanged. -/
def applyOp (leads : List Lead) (op : StoreOp) : List Lead :=
  if op.collection == "leads" && op.field == "followUpSent" then
    leads.map fun l => if l.id == op.docId then { l with followUpSent := op.value } else l
  else leads

/-- The leads collection after a list of store writes. -/
def finalLeads (leads : List Lead) (ops : List StoreOp) : List Lead :=
  ops.foldl applyOp leads

/-- Behaviour of the external collaborators during one run: whether the
Firebase app initialization succeeds (lines 109-114), whether the leads
query succeeds (line 125), whether the per-lead registrations query
(lines 157-160) and the per-lead update (lines 164 and 171) succeed, the
`RESEND_API_KEY` value, and the email provider outcome. -/
structure Env where
  initOk : Bool
  leadsQueryOk : Bool
  regQueryOk : String → Bool
  updateOk : String → Bool
  apiKey : Option String
  providerOk : String → String → Bool

/-- One iteration of the per-lead loop with fallible store calls.
`Except.error ()` is an exception escaping the loop body: the registrations
query and the two update calls are not inside any try block of `main`,
while the email POST failure is caught inside `send_resend_email`. -/
def processLeadE (env : Env) (registros : List Registro) (l : Lead) :
    Except Unit (List StoreOp × List EmailMsg) :=
  if truthyStr l.email = false ∨ truthyStr l.imei = false then .ok ([], [])
  else
    let email := l.email.getD ""
    let imei := l.imei.getD ""
    if env.regQueryOk l.id = false then .error ()
    else if hasRegistro registros email imei then
      if env.updateOk l.id then .ok ([⟨"leads", l.id, "followUpSent", true⟩], [])
      else .error ()
    else
      let attempts : List EmailMsg := if truthyStr env.apiKey then [⟨email, imei⟩] else []
      if send_resend_email env.apiKey env.providerOk email imei then
        if env.updateOk l.id then .ok ([⟨"leads", l.id, "followUpSent", true⟩], attempts)
        else .error ()
      else .ok ([], attempts)

/-- `main` (lines 105-174) with fallible collaborators.  The try block of
lines 109-114 catches every failure of the credential setup and returns
(`.ok` with no effects, before any query executes); the leads query of
line 125 and the per-lead store calls are outside every try block, so their
failures escape `main` (`.error`). -/
def mainE (env : Env) (leads : List Lead) (registros : List Registro) (now : Int) :
    Except Unit (List StoreOp × List EmailMsg) :=
  if env.initOk = false then .ok ([], [])
  else if env.leadsQueryOk = false then .error ()
  else
    (leadsToProcess leads now).foldlM
      (fun acc l => do
        let r ← processLeadE env registros l
        pure (acc.1 ++ r.1, acc.2 ++ r.2))
      (([], []) : List StoreOp × List EmailMsg)

/-- Modelled from the spec: the single compound range query of section 4.1,
`followUpSent = false AND createdAt ≤ now − 1 hour AND createdAt ≥ now − 2 days`
on the server (an inequality filter only matches documents where the field
is present).  This definition follows the spec wording, to be compared with
the two-stage `leadsToProcess` implemented by the code. -/
def compoundQuery (leads : List Lead) (now : Int) : List Lead :=
  leads.filter fun l =>
    (l.followUpSent == false) &&
      (match l.createdAt with
        | some t => decide (t ≤ now - 3600) && decide (now - 172800 ≤ t)
        | none => false)

/-- The collaborator behaviour where every store call succeeds. -/
def okEnv (apiKey : Option String) (providerOk : String → String → Bool) : Env :=
  { initOk := true, leadsQueryOk := true, regQueryOk := fun _ => true,
    updateOk := fun _ => true, apiKey := apiKey, providerOk := providerOk }

/-- Membership is invariant under `insertDesc`. -/
theorem mem_insertDesc (l x : Lead) (xs : List Lead) :
    l ∈ insertDesc x xs ↔ l = x ∨ l ∈ xs := by
  induction xs with
  | nil => simp [insertDesc]
  | cons y ys ih =>
    unfold insertDesc
    split
    · simp
    · simp only [List.mem_cons, ih]
      tauto

/-- Membership is invariant under the descending sort. -/
theorem mem_sortByCreatedAtDesc (l : Lead) (xs : List Lead) :
    l ∈ sortByCreatedAtDesc xs ↔ l ∈ xs := by
  induction xs with
  | nil => simp [sortByCreatedAtDesc]
  | cons y ys ih =>
    unfold sortByCreatedAtDesc
    rw [mem_insertDesc, ih, List.mem_cons]

/-- Membership in the selected set, unfolded. -/
theorem mem_leadsToProcess (leads : List Lead) (now : Int) (l : Lead) :
    l ∈ leadsToProcess leads now ↔
      l ∈ leads ∧ l.followUpSent = false ∧
        ∃ t, l.createdAt = some t ∧ t ≤ now - 3600 ∧ now - 172800 ≤ t := by
  unfold leadsToProcess leadsQuery
  rw [List.mem_filter, mem_sortByCreatedAtDesc, List.mem_filter]
  cases h : l.createdAt with
  | none => simp [h]
  | some t =>
    simp only [h, Bool.and_eq_true, beq_iff_eq, decide_eq_true_eq, Option.some.injEq]
    constructor
    · rintro ⟨⟨hmem, hf, h1⟩, h2⟩
      exact ⟨hmem, hf, t, rfl, h1, h2⟩
    · rintro ⟨hmem, hf, t', ht', h1, h2⟩
      cases ht'
      exact ⟨⟨hmem, hf, h1⟩, h2⟩

/-- Every store write of a run comes from some selected lead. -/
theorem runJob_ops_from_selected (leads : List Lead) (registros : List Registro)
    (apiKey : Option String) (providerOk : String → String → Bool) (now : Int) :
    ∀ op ∈ (runJob leads registros apiKey providerOk now).1,
      ∃ l ∈ leadsToProcess leads now,
        op ∈ (processLead registros apiKey providerOk l).1 := by
  intro op hop
  simpa [runJob, List.mem_flatMap] using hop

/-- Every store write a single lead causes is the update setting that lead
document field `followUpSent` to true in the `leads` collection. -/
theorem processLead_ops_shape (registros : List Registro) (apiKey : Option String)
    (providerOk : String → String → Bool) (l : Lead) :
    ∀ op ∈ (processLead registros apiKey providerOk l).1,
      op = ⟨"leads", l.id, "followUpSent", true⟩ := by
  intro op hop
  unfold processLead at hop
  split at hop
  · simp at hop
  · dsimp only at hop
    split at hop
    · simpa using hop
    · split at hop
      · simpa using hop
      · simp at hop

/-- A lead no store write of the run targets is still present, unchanged,
in the final leads collection. -/
theorem mem_finalLeads_of_untouched (leads : List Lead) (ops : List StoreOp) (l : Lead)
    (hl : l ∈ leads) (h : ∀ op ∈ ops, op.docId ≠ l.id) :
    l ∈ finalLeads leads ops := by
  induction ops generalizing leads with
  | nil => exact hl
  | cons op ops ih =>
    apply ih
    · unfold applyOp
      split
      · refine List.mem_map.mpr ⟨l, hl, ?_⟩
        have hne : (l.id == op.docId) = false :=
          beq_eq_false_iff_ne.mpr fun he => (h op (List.mem_cons_self op ops)) he.symm
        simp [hne]
      · exact hl
    · intro o ho
      exact h o (List.mem_cons_of_mem op ho)

/-- If a lead of the store is not selected, or contributes no store write,
then, when the ids of the store are distinct, no store write of the whole
run targets its id. -/
theorem runJob_no_op_for_lead (leads : List Lead) (registros : List Registro)
    (apiKey : Option String) (providerOk : String → String → Bool) (now : Int) (l : Lead)
    (hids : (leads.map Lead.id).Nodup) (hl : l ∈ leads)
    (hcon : l ∉ leadsToProcess leads now ∨
      (processLead registros apiKey providerOk l).1 = []) :
    ∀ op ∈ (runJob leads registros apiKey providerOk now).1, op.docId ≠ l.id := by
  intro op hop heq
  obtain ⟨l', hl', hop'⟩ :=
    runJob_ops_from_selected leads registros apiKey providerOk now op hop
  have hshape := processLead_ops_shape registros apiKey providerOk l' op hop'
  have hid : l'.id = l.id := by rw [hshape] at heq; exact heq
  have hl'mem : l' ∈ leads := ((mem_leadsToProcess leads now l').mp hl').1
  have : l' = l := List.inj_on_of_nodup_map hids hl'mem hl hid
  subst this
  rcases hcon with hsel | hempty
  · exact hsel hl'
  · rw [hempty] at hop'
    exact absurd hop' (List.not_mem_nil op)

/-- C1: a lead of the store is selected for processing iff `followUpSent`
is false and its `createdAt` is present, at most `now` minus one hour, and
at least `now` minus two days, both bounds inclusive, for the single
timestamp `now` of the run. -/
theorem selection_window_iff (leads : List Lead) (now : Int) (l : Lead)
    (h : l ∈ leads) :
    l ∈ leadsToProcess leads now ↔
      l.followUpSent = false ∧
        ∃ t, l.createdAt = some t ∧ t ≤ now - 3600 ∧ now - 172800 ≤ t := by
  rw [mem_leadsToProcess]
  tauto

/-- A lead whose `createdAt` is exactly one hour before the run timestamp
1000000, with `followUpSent` false and both fields present. -/
def wLead : Lead := ⟨"L1", some "a@x.com", some "123", some 996400, false⟩

/-- A lead whose `createdAt` is exactly two days before the run timestamp
1000000, with `followUpSent` false and both fields present. -/
def wLead2 : Lead := ⟨"L2", some "b@x.com", some "456", some 827200, false⟩

/-- Witness for C1 at a concrete input. -/
theorem selection_window_iff_witness :
    wLead ∈ leadsToProcess [wLead] 1000000 ↔
      wLead.followUpSent = false ∧
        ∃ t, wLead.createdAt = some t ∧ t ≤ 1000000 - 3600 ∧ 1000000 - 172800 ≤ t :=
  selection_window_iff [wLead] 1000000 wLead (List.mem_singleton.mpr rfl)

/-- C2 counterexample: a lead whose `createdAt` equals exactly `now` minus
one hour (996400 at run timestamp 1000000), with `followUpSent` false and
every other eligibility condition met, IS in the selected set of the run,
refuting the claimed exclusion at that boundary: the query uses `<=`. -/
theorem boundary_one_hour_included_cex :
    wLead ∈ leadsToProcess [wLead] 1000000 := by decide

/-- C2 (amended): a lead whose `createdAt` equals exactly `now` minus one
hour is included in the selected set, and a lead whose `createdAt` equals
exactly `now` minus two days is also included (given `followUpSent` false
and membership in the store). -/
theorem boundary_leads_included (leads : List Lead) (now : Int) (l : Lead)
    (hmem : l ∈ leads) (hf : l.followUpSent = false) :
    (l.createdAt = some (now - 3600) → l ∈ leadsToProcess leads now) ∧
    (l.createdAt = some (now - 172800) → l ∈ leadsToProcess leads now) := by
  constructor <;> intro hc <;>
    exact (mem_leadsToProcess leads now l).mpr ⟨hmem, hf, _, hc, by omega, by omega⟩

/-- Witness for the amended C2 at a concrete input: the two-day boundary. -/
theorem boundary_leads_included_witness :
    wLead2 ∈ leadsToProcess [wLead2] 1000000 :=
  (boundary_leads_included [wLead2] 1000000 wLead2 (List.mem_singleton.mpr rfl) rfl).2 rfl

/-- C9: the two-stage selection the code implements (server-side filter on
`followUpSent` false and `createdAt` at most `now` minus one hour, then the
local post-filter keeping present `createdAt` at least `now` minus two
days) selects exactly the leads of the compound range query of the spec,
agreeing also on leads with missing `createdAt`, in neither set. -/
theorem two_stage_eq_compound (leads : List Lead) (now : Int) (l : Lead) :
    l ∈ leadsToProcess leads now ↔ l ∈ compoundQuery leads now := by
  rw [mem_leadsToProcess]
  unfold compoundQuery
  rw [List.mem_filter]
  cases h : l.createdAt with
  | none => simp [h]
  | some t =>
    simp only [h, Bool.and_eq_true, beq_iff_eq, decide_eq_true_eq, Option.some.injEq]
    constructor
    · rintro ⟨hm, hf, t', ht', h1, h2⟩
      cases ht'
      exact ⟨hm, hf, h1, h2⟩
    · rintro ⟨hm, ⟨hf, h1, h2⟩⟩
      exact ⟨hm, hf, t, rfl, h1, h2⟩

/-- The per-lead loop body with a missing email or imei: no write, no POST. -/
theorem processLead_skip (registros : List Registro) (apiKey : Option String)
    (providerOk : String → String → Bool) (l : Lead)
    (h : truthyStr l.email = false ∨ truthyStr l.imei = false) :
    processLead registros apiKey providerOk l = ([], []) := by
  unfold processLead
  rw [if_pos h]

/-- The per-lead loop body on a both-fields registration match: only the
marking write, no POST. -/
theorem processLead_converted (registros : List Registro) (apiKey : Option String)
    (providerOk : String → String → Bool) (l : Lead)
    (he : truthyStr l.email = true) (hi : truthyStr l.imei = true)
    (hreg : hasRegistro registros (l.email.getD "") (l.imei.getD "") = true) :
    processLead registros apiKey providerOk l =
      ([⟨"leads", l.id, "followUpSent", true⟩], []) := by
  unfold processLead
  rw [if_neg (by simp [he, hi])]
  dsimp only
  rw [if_pos hreg]

/-- The per-lead loop body when no registration matches and the send fails:
no write, and a POST exactly when the API key is truthy. -/
theorem processLead_send_fail (registros : List Registro) (apiKey : Option String)
    (providerOk : String → String → Bool) (l : Lead)
    (he : truthyStr l.email = true) (hi : truthyStr l.imei = true)
    (hreg : hasRegistro registros (l.email.getD "") (l.imei.getD "") = false)
    (hfail : send_resend_email apiKey providerOk (l.email.getD "") (l.imei.getD "") = false) :
    processLead registros apiKey providerOk l =
      ([], if truthyStr apiKey then [⟨l.email.getD "", l.imei.getD ""⟩] else []) := by
  unfold processLead
  rw [if_neg (by simp [he, hi])]
  dsimp only
  rw [if_neg (by simp [hreg]), if_neg (by simp [hfail])]

/-- The per-lead loop body when no registration matches: with a truthy API
key one POST for the lead happens, whatever its outcome. -/
theorem processLead_attempts (registros : List Registro) (apiKey : Option String)
    (providerOk : String → String → Bool) (l : Lead)
    (he : truthyStr l.email = true) (hi : truthyStr l.imei = true)
    (hreg : hasRegistro registros (l.email.getD "") (l.imei.getD "") = false)
    (hkey : truthyStr apiKey = true) :
    (processLead registros apiKey providerOk l).2 =
      [⟨l.email.getD "", l.imei.getD ""⟩] := by
  unfold processLead
  rw [if_neg (by simp [he, hi])]
  dsimp only
  rw [if_neg (by simp [hreg]), hkey]
  split <;> rfl

/-- When no registration matches both fields, the duplicate check is false. -/
theorem hasRegistro_eq_false (registros : List Registro) (email imei : String)
    (h : ∀ r ∈ registros, ¬(r.customerEmail = email ∧ r.imei1 = imei)) :
    hasRegistro registros email imei = false := by
  unfold hasRegistro
  rw [List.any_eq_false]
  intro r hr
  have := h r hr
  simp only [Bool.and_eq_true, beq_iff_eq]
  tauto

/-- Every store write of a run is the update of the `followUpSent` field of
a lead document of the `leads` collection to `true`. -/
theorem runJob_op_fields (leads : List Lead) (registros : List Registro)
    (apiKey : Option String) (providerOk : String → String → Bool) (now : Int) :
    ∀ op ∈ (runJob leads registros apiKey providerOk now).1,
      op.collection = "leads" ∧ op.field = "followUpSent" ∧ op.value = true := by
  intro op hop
  obtain ⟨l', _, hop'⟩ :=
    runJob_ops_from_selected leads registros apiKey providerOk now op hop
  have := processLead_ops_shape registros apiKey providerOk l' op hop'
  subst this
  exact ⟨rfl, rfl, rfl⟩

/-- One store write never changes a lead id, email, imei or createdAt, nor
the number and order of the lead documents. -/
theorem applyOp_frame (leads : List Lead) (op : StoreOp) :
    (applyOp leads op).map (fun l => (l.id, l.email, l.imei, l.createdAt)) =
      leads.map (fun l => (l.id, l.email, l.imei, l.createdAt)) := by
  unfold applyOp
  split
  · rw [List.map_map]
    refine List.map_congr_left ?_
    intro l _
    by_cases h : (l.id == op.docId) = true <;> simp [h, Function.comp]
  · rfl

/-- A run of store writes never changes a lead id, email, imei or createdAt,
nor the number and order of the lead documents. -/
theorem finalLeads_frame (leads : List Lead) (ops : List StoreOp) :
    (finalLeads leads ops).map (fun l => (l.id, l.email, l.imei, l.createdAt)) =
      leads.map (fun l => (l.id, l.email, l.imei, l.createdAt)) := by
  induction ops generalizing leads with
  | nil => rfl
  | cons op ops ih =>
    have hstep : finalLeads leads (op :: ops) = finalLeads (applyOp leads op) ops := rfl
    rw [hstep, ih (applyOp leads op), applyOp_frame]

/-- A registration matching wLead on both fields. -/
def wReg : Registro := ⟨"a@x.com", "123"⟩

/-- A registration sharing the email of wLead but with another device. -/
def wRegOther : Registro := ⟨"a@x.com", "999"⟩

/-- A lead already marked: `followUpSent` true. -/
def wLeadSent : Lead := ⟨"L4", some "d@x.com", some "777", some 996400, true⟩

/-- A lead in the window with a missing imei. -/
def wLeadNoImei : Lead := ⟨"L3", some "c@x.com", none, some 996400, false⟩

/-- C3: for a selected lead with present email and imei and a truthy email
API key, when no registration matches both `customerEmail` and `imei1`
together — in particular when a registration shares the email but carries
a different `imei1` — the duplicate check does not suppress the send and
the run POSTs the follow-up email for that lead. -/
theorem no_both_match_still_sends (leads : List Lead) (registros : List Registro)
    (apiKey : Option String) (providerOk : String → String → Bool) (now : Int) (l : Lead)
    (hsel : l ∈ leadsToProcess leads now)
    (he : truthyStr l.email = true) (hi : truthyStr l.imei = true)
    (hkey : truthyStr apiKey = true)
    (hnomatch : ∀ r ∈ registros,
      ¬(r.customerEmail = l.email.getD "" ∧ r.imei1 = l.imei.getD "")) :
    (⟨l.email.getD "", l.imei.getD ""⟩ : EmailMsg) ∈
      (runJob leads registros apiKey providerOk now).2 := by
  have hreg := hasRegistro_eq_false registros (l.email.getD "") (l.imei.getD "") hnomatch
  refine List.mem_flatMap.mpr ⟨l, hsel, ?_⟩
  rw [processLead_attempts registros apiKey providerOk l he hi hreg hkey]
  exact List.mem_singleton.mpr rfl

/-- Witness for C3: same email, different device, the mail still goes out. -/
theorem no_both_match_still_sends_witness :
    (⟨"a@x.com", "123"⟩ : EmailMsg) ∈
      (runJob [wLead] [wRegOther] (some "k") (fun _ _ => true) 1000000).2 :=
  no_both_match_still_sends [wLead] [wRegOther] (some "k") (fun _ _ => true) 1000000 wLead
    (by decide) (by decide) (by decide) (by decide) (by decide)

/-- C4: for a selected lead with present email and imei matched by a
registration on both fields together, the loop body issues exactly the
write marking the lead and no email POST, and that write is issued by the
run. -/
theorem both_match_marks_and_skips (leads : List Lead) (registros : List Registro)
    (apiKey : Option String) (providerOk : String → String → Bool) (now : Int) (l : Lead)
    (hsel : l ∈ leadsToProcess leads now)
    (he : truthyStr l.email = true) (hi : truthyStr l.imei = true)
    (hmatch : ∃ r ∈ registros,
      r.customerEmail = l.email.getD "" ∧ r.imei1 = l.imei.getD "") :
    processLead registros apiKey providerOk l =
      ([⟨"leads", l.id, "followUpSent", true⟩], []) ∧
    (⟨"leads", l.id, "followUpSent", true⟩ : StoreOp) ∈
      (runJob leads registros apiKey providerOk now).1 := by
  have hreg : hasRegistro registros (l.email.getD "") (l.imei.getD "") = true := by
    obtain ⟨r, hr, h1, h2⟩ := hmatch
    unfold hasRegistro
    rw [List.any_eq_true]
    exact ⟨r, hr, by simp [h1, h2]⟩
  have hp := processLead_converted registros apiKey providerOk l he hi hreg
  refine ⟨hp, List.mem_flatMap.mpr ⟨l, hsel, ?_⟩⟩
  rw [hp]
  exact List.mem_singleton.mpr rfl

/-- Witness for C4 at a concrete input. -/
theorem both_match_marks_and_skips_witness :
    processLead [wReg] (some "k") (fun _ _ => true) wLead =
      ([⟨"leads", "L1", "followUpSent", true⟩], []) ∧
    (⟨"leads", "L1", "followUpSent", true⟩ : StoreOp) ∈
      (runJob [wLead] [wReg] (some "k") (fun _ _ => true) 1000000).1 :=
  both_match_marks_and_skips [wLead] [wReg] (some "k") (fun _ _ => true) 1000000 wLead
    (by decide) (by decide) (by decide) (by decide)

/-- C5: for an eligible, non-converted lead whose send fails (non-2xx,
transport error or falsy API key all make `send_resend_email` return
false), the run issues no store write targeting that lead, the lead sits
unchanged — `followUpSent` still false — in the final collection, and
every selected lead is still processed (its POSTs are all in the run). -/
theorem send_failure_leaves_unmarked (leads : List Lead) (registros : List Registro)
    (apiKey : Option String) (providerOk : String → String → Bool) (now : Int) (l : Lead)
    (hids : (leads.map Lead.id).Nodup) (hl : l ∈ leads)
    (hf : l.followUpSent = false)
    (he : truthyStr l.email = true) (hi : truthyStr l.imei = true)
    (hnomatch : ∀ r ∈ registros,
      ¬(r.customerEmail = l.email.getD "" ∧ r.imei1 = l.imei.getD ""))
    (hfail : send_resend_email apiKey providerOk (l.email.getD "") (l.imei.getD "") = false) :
    (∀ op ∈ (runJob leads registros apiKey providerOk now).1, op.docId ≠ l.id) ∧
    l ∈ finalLeads leads (runJob leads registros apiKey providerOk now).1 ∧
    l.followUpSent = false ∧
    (∀ l2 ∈ leadsToProcess leads now,
      ∀ msg ∈ (processLead registros apiKey providerOk l2).2,
        msg ∈ (runJob leads registros apiKey providerOk now).2) := by
  have hreg := hasRegistro_eq_false registros (l.email.getD "") (l.imei.getD "") hnomatch
  have hempty : (processLead registros apiKey providerOk l).1 = [] := by
    rw [processLead_send_fail registros apiKey providerOk l he hi hreg hfail]
  have hno := runJob_no_op_for_lead leads registros apiKey providerOk now l hids hl
    (Or.inr hempty)
  refine ⟨hno, mem_finalLeads_of_untouched leads _ l hl hno, hf, ?_⟩
  intro l2 hl2 msg hmsg
  exact List.mem_flatMap.mpr ⟨l2, hl2, hmsg⟩

/-- Witness for C5: the provider refuses, the lead stays unmarked. -/
theorem send_failure_leaves_unmarked_witness :
    (∀ op ∈ (runJob [wLead] [] (some "k") (fun _ _ => false) 1000000).1,
      op.docId ≠ "L1") ∧
    wLead ∈ finalLeads [wLead] (runJob [wLead] [] (some "k") (fun _ _ => false) 1000000).1 ∧
    wLead.followUpSent = false ∧
    (∀ l2 ∈ leadsToProcess [wLead] 1000000,
      ∀ msg ∈ (processLead [] (some "k") (fun _ _ => false) l2).2,
        msg ∈ (runJob [wLead] [] (some "k") (fun _ _ => false) 1000000).2) :=
  send_failure_leaves_unmarked [wLead] [] (some "k") (fun _ _ => false) 1000000 wLead
    (by decide) (by decide) (by decide) (by decide) (by decide) (by decide) (by decide)

/-- C6: a lead with `followUpSent` true at the start of the run is not
selected, no store write of the run targets it, it sits unchanged in the
final collection, and every store write of the run sets `followUpSent` to
true — no write ever sets the flag back to false. -/
theorem followUpSent_terminal (leads : List Lead) (registros : List Registro)
    (apiKey : Option String) (providerOk : String → String → Bool) (now : Int) (l : Lead)
    (hids : (leads.map Lead.id).Nodup) (hl : l ∈ leads) (ht : l.followUpSent = true) :
    l ∉ leadsToProcess leads now ∧
    (∀ op ∈ (runJob leads registros apiKey providerOk now).1, op.docId ≠ l.id) ∧
    l ∈ finalLeads leads (runJob leads registros apiKey providerOk now).1 ∧
    (∀ op ∈ (runJob leads registros apiKey providerOk now).1, op.value = true) := by
  have hnotsel : l ∉ leadsToProcess leads now := by
    rw [mem_leadsToProcess]
    rintro ⟨-, hf, -⟩
    rw [ht] at hf
    exact Bool.noConfusion hf
  have hno := runJob_no_op_for_lead leads registros apiKey providerOk now l hids hl
    (Or.inl hnotsel)
  refine ⟨hnotsel, hno, mem_finalLeads_of_untouched leads _ l hl hno, ?_⟩
  intro op hop
  exact (runJob_op_fields leads registros apiKey providerOk now op hop).2.2

/-- Witness for C6 at a concrete input. -/
theorem followUpSent_terminal_witness :
    wLeadSent ∉ leadsToProcess [wLeadSent] 1000000 ∧
    (∀ op ∈ (runJob [wLeadSent] [] (some "k") (fun _ _ => true) 1000000).1,
      op.docId ≠ "L4") ∧
    wLeadSent ∈
      finalLeads [wLeadSent] (runJob [wLeadSent] [] (some "k") (fun _ _ => true) 1000000).1 ∧
    (∀ op ∈ (runJob [wLeadSent] [] (some "k") (fun _ _ => true) 1000000).1,
      op.value = true) :=
  followUpSent_terminal [wLeadSent] [] (some "k") (fun _ _ => true) 1000000 wLeadSent
    (by decide) (by decide) (by decide)

/-- C7: a selected lead missing its email or its imei causes no write and
no POST, no store write of the run targets it, it sits unchanged in the
final collection, and the remaining selected leads are still processed
(their writes are all in the run). -/
theorem missing_field_skipped (leads : List Lead) (registros : List Registro)
    (apiKey : Option String) (providerOk : String → String → Bool) (now : Int) (l : Lead)
    (hids : (leads.map Lead.id).Nodup) (hl : l ∈ leads)
    (_hsel : l ∈ leadsToProcess leads now)
    (hmiss : truthyStr l.email = false ∨ truthyStr l.imei = false) :
    processLead registros apiKey providerOk l = ([], []) ∧
    (∀ op ∈ (runJob leads registros apiKey providerOk now).1, op.docId ≠ l.id) ∧
    l ∈ finalLeads leads (runJob leads registros apiKey providerOk now).1 ∧
    (∀ l2 ∈ leadsToProcess leads now,
      ∀ op ∈ (processLead registros apiKey providerOk l2).1,
        op ∈ (runJob leads registros apiKey providerOk now).1) := by
  have hp := processLead_skip registros apiKey providerOk l hmiss
  have hno := runJob_no_op_for_lead leads registros apiKey providerOk now l hids hl
    (Or.inr (by rw [hp]))
  refine ⟨hp, hno, mem_finalLeads_of_untouched leads _ l hl hno, ?_⟩
  intro l2 hl2 op hop
  exact List.mem_flatMap.mpr ⟨l2, hl2, hop⟩

/-- Witness for C7: a selected lead without imei is skipped unchanged. -/
theorem missing_field_skipped_witness :
    processLead [] (some "k") (fun _ _ => true) wLeadNoImei = ([], []) ∧
    (∀ op ∈ (runJob [wLeadNoImei] [] (some "k") (fun _ _ => true) 1000000).1,
      op.docId ≠ "L3") ∧
    wLeadNoImei ∈
      finalLeads [wLeadNoImei]
        (runJob [wLeadNoImei] [] (some "k") (fun _ _ => true) 1000000).1 ∧
    (∀ l2 ∈ leadsToProcess [wLeadNoImei] 1000000,
      ∀ op ∈ (processLead [] (some "k") (fun _ _ => true) l2).1,
        op ∈ (runJob [wLeadNoImei] [] (some "k") (fun _ _ => true) 1000000).1) :=
  missing_field_skipped [wLeadNoImei] [] (some "k") (fun _ _ => true) 1000000 wLeadNoImei
    (by decide) (by decide) (by decide) (by decide)

/-- C10: every store mutation of a run is the update of the `followUpSent`
field of a lead document of the `leads` collection to `true` — never the
`registros` collection, never another field — and the writes of the run
change no other field of any lead and delete no lead: ids, emails, imeis,
createdAt values, document count and order are all preserved. -/
theorem run_writes_only_followUpSent (leads : List Lead) (registros : List Registro)
    (apiKey : Option String) (providerOk : String → String → Bool) (now : Int) :
    (∀ op ∈ (runJob leads registros apiKey providerOk now).1,
      op.collection = "leads" ∧ op.field = "followUpSent" ∧ op.value = true) ∧
    (finalLeads leads (runJob leads registros apiKey providerOk now).1).map
        (fun l => (l.id, l.email, l.imei, l.createdAt)) =
      leads.map (fun l => (l.id, l.email, l.imei, l.createdAt)) :=
  ⟨runJob_op_fields leads registros apiKey providerOk now,
   finalLeads_frame leads (runJob leads registros apiKey providerOk now).1⟩

/-- Witness for C10 at a concrete input with a nonempty write list. -/
theorem run_writes_only_followUpSent_witness :
    (∀ op ∈ (runJob [wLead] [wReg] (some "k") (fun _ _ => true) 1000000).1,
      op.collection = "leads" ∧ op.field = "followUpSent" ∧ op.value = true) ∧
    (finalLeads [wLead] (runJob [wLead] [wReg] (some "k") (fun _ _ => true) 1000000).1).map
        (fun l => (l.id, l.email, l.imei, l.createdAt)) =
      [wLead].map (fun l => (l.id, l.email, l.imei, l.createdAt)) :=
  run_writes_only_followUpSent [wLead] [wReg] (some "k") (fun _ _ => true) 1000000

/-- Collaborator behaviour where the credential setup succeeds and the
leads query raises. -/
def badStoreEnv : Env :=
  { initOk := true, leadsQueryOk := false, regQueryOk := fun _ => true,
    updateOk := fun _ => true, apiKey := some "k", providerOk := fun _ _ => true }

/-- C8 counterexample: with the credential setup succeeding and the leads
query raising, the exception escapes `main` — the leads query of line 125
is outside every try block, so not every collaborator failure is caught. -/
theorem store_error_escapes_cex :
    mainE badStoreEnv [] [] 0 = Except.error () := rfl

/-- When the per-lead store calls succeed, the fallible loop body agrees
with the pure loop body. -/
theorem processLeadE_ok (env : Env) (registros : List Registro) (l : Lead)
    (hreg : env.regQueryOk l.id = true) (hupd : env.updateOk l.id = true) :
    processLeadE env registros l =
      Except.ok (processLead registros env.apiKey env.providerOk l) := by
  unfold processLeadE processLead
  split
  · rfl
  · dsimp only
    rw [if_neg (by simp [hreg])]
    split
    · rfl
    · split
      · rfl
      · rfl

/-- With succeeding store calls the fold of the fallible loop returns the
concatenation of the pure per-lead effects. -/
theorem foldlM_ok_eq (env : Env) (registros : List Registro)
    (hreg : ∀ i, env.regQueryOk i = true) (hupd : ∀ i, env.updateOk i = true)
    (sel : List Lead) :
    ∀ acc : List StoreOp × List EmailMsg,
      sel.foldlM (fun acc l => do
          let r ← processLeadE env registros l
          pure (acc.1 ++ r.1, acc.2 ++ r.2)) acc =
        Except.ok
          (acc.1 ++ sel.flatMap
            (fun l => (processLead registros env.apiKey env.providerOk l).1),
           acc.2 ++ sel.flatMap
            (fun l => (processLead registros env.apiKey env.providerOk l).2)) := by
  induction sel with
  | nil =>
    intro acc
    show Except.ok acc = _
    simp
  | cons l ls ih =>
    intro acc
    rw [List.foldlM_cons, processLeadE_ok env registros l (hreg l.id) (hupd l.id)]
    show (ls.foldlM _ _) = _
    rw [ih]
    simp [List.append_assoc]

/-- With every store call succeeding, `mainE` returns the happy-path run. -/
theorem mainE_eq_runJob (env : Env) (leads : List Lead) (registros : List Registro)
    (now : Int) (hinit : env.initOk = true) (hq : env.leadsQueryOk = true)
    (hreg : ∀ i, env.regQueryOk i = true) (hupd : ∀ i, env.updateOk i = true) :
    mainE env leads registros now =
      Except.ok (runJob leads registros env.apiKey env.providerOk now) := by
  unfold mainE runJob
  rw [if_neg (by simp [hinit]), if_neg (by simp [hq])]
  rw [foldlM_ok_eq env registros hreg hupd (leadsToProcess leads now) ([], [])]
  simp

/-- C8 (amended): a configuration failure is caught and aborts the run with
no effects, before any query executes and whatever the store behaviour
would be; and when the store calls succeed no exception escapes `main`,
whatever the email API key and the email provider outcomes; but store
query and store update failures are NOT caught and escape `main`
(counterexample above). -/
theorem main_error_handling_amended (env : Env) (leads : List Lead)
    (registros : List Registro) (now : Int)
    (hq : env.leadsQueryOk = true)
    (hreg : ∀ i, env.regQueryOk i = true) (hupd : ∀ i, env.updateOk i = true) :
    (∃ r, mainE env leads registros now = Except.ok r) ∧
    (∀ env2 : Env, env2.initOk = false →
      mainE env2 leads registros now = Except.ok ([], [])) := by
  constructor
  · by_cases hinit : env.initOk = true
    · exact ⟨_, mainE_eq_runJob env leads registros now hinit hq hreg hupd⟩
    · refine ⟨([], []), ?_⟩
      unfold mainE
      rw [if_pos (by revert hinit; cases env.initOk <;> simp)]
  · intro env2 h2
    unfold mainE
    rw [if_pos h2]

/-- Witness for the amended C8 at a concrete input. -/
theorem main_error_handling_amended_witness :
    (∃ r, mainE (okEnv none fun _ _ => false) [] [] 0 = Except.ok r) ∧
    (∀ env2 : Env, env2.initOk = false → mainE env2 [] [] 0 = Except.ok ([], [])) :=
  main_error_handling_amended (okEnv none fun _ _ => false) [] [] 0 rfl
    (fun _ => rfl) (fun _ => rfl)
